import Mathlib

/-!
Verification of the scarlet indexing and tagging pipeline.

This file gives a shallow embedding of the core data model and the two
analyzers of the repository:

* `indexer.py`: the `FunctionInfo` / `ContractInfo` / `EntrypointInfo` /
  `SinkInfo` records and the per-contract function comparator `sort_key`.
* `analyzers/entrypoints.py`: `_is_entrypoint`, `_is_guarded`,
  `_adminish_tag`, `_slice_src`, `_detect_calls_out`,
  `_has_inline_sender_guard`, `_bucket_ep` and `collect_entrypoints`.
* `analyzers/sinks.py`: `_slice_src`, `_detect_calls_out`,
  `_detect_balanceof` and `collect_sinks`.

Python strings are modelled as Lean `String` (both are sequences of code
points, and `len`, slicing, `in`, `startswith`, `lower` act on code
points).  Python `int` is modelled as `Int`.  The `src_by_file` dict is
modelled as an association list queried with a default, matching
`dict.get(key, "")`.  Python `sorted` is a stable sort by a key tuple;
it is modelled by `List.mergeSort` (also stable) with the corresponding
lexicographic boolean comparator, which determines the same output.
-/

/-- Mirrors `FunctionInfo` of `indexer.py`; the `src_file` field (default
`""`) mirrors the extra field of `SlitherFunctionInfo` in
`slither_index.py`, which the analyzers read via
`getattr(fi, "src_file", "")`. -/
structure FunctionInfo where
  name : String
  signature : String
  visibility : String
  mutability : String
  modifiers : List String
  line : Nat
  src_start : Int := 0
  src_len : Int := 0
  src_file : String := ""
deriving DecidableEq, Repr

/-- Mirrors `ContractInfo` of `indexer.py`. -/
structure ContractInfo where
  name : String
  kind : String
  file : String
  functions : List FunctionInfo
  has_receive : Bool
  has_fallback : Bool
deriving DecidableEq, Repr

/-- Mirrors `EntrypointInfo` of `indexer.py` (the `is_inherited`,
`origin_contract`, `state_writes` fields are reserved for the future in
the source and always keep their defaults). -/
structure EntrypointInfo where
  contract : String
  contract_kind : String
  file : String
  signature : String
  name : String
  visibility : String
  mutability : String
  modifiers : List String
  line : Nat
  tags : List String
  is_inherited : Bool := false
  origin_contract : Option String := none
  state_writes : Option (List String) := none
deriving DecidableEq, Repr

/-- Mirrors `SinkInfo` of `indexer.py`. -/
structure SinkInfo where
  contract : String
  contract_kind : String
  file : String
  signature : String
  name : String
  visibility : String
  mutability : String
  modifiers : List String
  line : Nat
  tags : List String
deriving DecidableEq, Repr

/-- Python `dict.get(k, "")` on the `src_by_file` mapping, modelled over
an association list. -/
def lookupD (m : List (String × String)) (k : String) : String :=
  match m.find? (fun p => p.1 == k) with
  | some p => p.2
  | none => ""

/-- Python `str.lower()` (ASCII case folding, which is all the analyzer
vocabularies use). -/
def lowerStr (s : String) : String :=
  String.mk (s.toList.map Char.toLower)

/-- The whitespace class of Python `str.split()` / regex `\s` (ASCII
part): space, tab, newline, carriage return, vertical tab, form feed. -/
def isPySpace (c : Char) : Bool :=
  c = ' ' || c = '\t' || c = '\n' || c = '\r' || c = '\x0b' || c = '\x0c'

/-- Python `"".join(s.split())` and `re.sub(r"\s+", "", s)`: remove every
whitespace character. -/
def stripWS (s : String) : String :=
  String.mk (s.toList.filter (fun c => !isPySpace c))

/-- Python substring test `pat in hay`. -/
def containsSub (hay pat : String) : Bool :=
  decide (pat.toList <:+: hay.toList)

/-- `GUARD_TOKENS` of `analyzers/entrypoints.py`. -/
def GUARD_TOKENS : List String :=
  ["only", "auth", "role", "owner", "admin", "govern", "paus",
   "whitelist", "allowlist", "restricted", "operator", "keeper", "guardian"]

/-- `ADMINISH_PREFIXES` of `analyzers/entrypoints.py`. -/
def ADMINISH_TOKENS : List String :=
  ["set", "update", "upgrade", "initialize", "init", "configure", "config",
   "grant", "revoke", "authorize", "pause", "unpause", "rescue", "sweep"]

/-- `CALLS_OUT_MARKERS` (identical in `analyzers/entrypoints.py` and
`analyzers/sinks.py`); `\x7b` is the opening curly brace of `.call` with
a value block. -/
def CALLS_OUT_MARKERS : List String :=
  [".call(", ".call\x7b", ".delegatecall(", ".staticcall("]

/-- `_is_entrypoint` of `analyzers/entrypoints.py`. -/
def is_entrypoint (fi : FunctionInfo) : Bool :=
  fi.visibility == "public" || fi.visibility == "external"
    || fi.name == "receive" || fi.name == "fallback"

/-- `_is_guarded` of `analyzers/entrypoints.py`: some modifier name,
lower-cased, contains some guard token. -/
def is_guarded (mods : List String) : Bool :=
  mods.any (fun m => GUARD_TOKENS.any (fun tok => containsSub (lowerStr m) tok))

/-- `_adminish_tag` of `analyzers/entrypoints.py`: the lower-cased
function name starts with one of the admin-ish name tokens (Python
`startswith`, i.e. code-point prefix). -/
def adminish_tag (fn_name : String) : Bool :=
  ADMINISH_TOKENS.any (fun p => decide (p.toList <+: (lowerStr fn_name).toList))

/-- `_slice_src` (identical in `analyzers/entrypoints.py` and
`analyzers/sinks.py`): bounds-safe extraction of
`src[start : min(len(src), start + length)]`, with the empty string as
the sentinel for unavailable slices. -/
def slice_src (src : String) (start length : Int) : String :=
  if start ≤ 0 ∨ length ≤ 0 then ""
  else if (src.length : Int) ≤ start then ""
  else
    let s := start.toNat
    let e := min src.length (s + length.toNat)
    String.mk ((src.toList.drop s).take (e - s))

/-- `_detect_calls_out` (identical in both analyzers): the pair
`(calls_out, has_delegate)` of the low-level call marker scan over the
lower-cased excerpt. -/
def detect_calls_out (fn_src : String) : Bool × Bool :=
  if fn_src = "" then (false, false)
  else
    let low := lowerStr fn_src
    (CALLS_OUT_MARKERS.any (fun m => containsSub low m),
     containsSub low ".delegatecall(")

/-- `_has_inline_sender_guard` of `analyzers/entrypoints.py`: over the
whitespace-stripped, lower-cased excerpt, gate on `msg.sender` and on a
`require(`/`revert`/`if(` construct, then look for a direct comparison
against `msg.sender`. -/
def has_inline_sender_guard (fn_src : String) : Bool :=
  if fn_src = "" then false
  else
    let s := lowerStr (stripWS fn_src)
    if containsSub s "msg.sender" = false then false
    else if containsSub s "require(" = false ∧ containsSub s "revert" = false
        ∧ containsSub s "if(" = false then false
    else containsSub s "msg.sender==" || containsSub s "msg.sender!="
        || containsSub s "msg.sender<" || containsSub s "msg.sender>"

/-- `_bucket_ep` of `analyzers/entrypoints.py`. -/
def bucket_ep (name mutab : String) : Nat :=
  if name = "receive" ∨ name = "fallback" then 0
  else if mutab = "payable" then 1
  else if mutab = "view" ∨ mutab = "pure" then 3
  else if mutab = "nonpayable" ∨ mutab = "" then 2
  else 4

/-- Python `tags[tags.index(a)] = b`: overwrite the first occurrence of
`a` with `b` (the caller guards with `a in tags`). -/
def set_first (l : List String) (a b : String) : List String :=
  match l with
  | [] => []
  | x :: xs => if x = a then b :: xs else x :: set_first xs a b

/-- The tag accumulation of the loop body of `collect_entrypoints`
(`analyzers/entrypoints.py`), as a function of the function record and
its source excerpt. -/
def entrypoint_tags (fi : FunctionInfo) (fn_src : String) : List String :=
  let guarded := is_guarded fi.modifiers
  let tags0 := [if guarded then "guarded" else "for-all"]
  let tags1 := if fi.mutability = "payable" then tags0 ++ ["value"] else tags0
  let inline_guard := has_inline_sender_guard fn_src
  let tags2 :=
    if inline_guard && tags1.contains "for-all" then
      set_first tags1 "for-all" "guarded-inline"
    else tags1
  let tags3 :=
    if adminish_tag fi.name then
      tags2 ++ [if guarded || inline_guard then "admin-ish" else "admin-ish (no-guard)"]
    else tags2
  let cd := detect_calls_out fn_src
  let tags4 := if cd.1 then tags3 ++ ["calls-out"] else tags3
  if cd.2 then tags4 ++ ["delegatecall"] else tags4

/-- `decl_file = getattr(fi, "src_file", "") or c.file` (Python `or`
falls through on the empty string). -/
def decl_file_of (c : ContractInfo) (fi : FunctionInfo) : String :=
  if fi.src_file = "" then c.file else fi.src_file

/-- One iteration of the function loop of `collect_entrypoints`:
eligibility filter, cross-file inheritance suppression, source slicing,
slice-failure suppression, and record construction. -/
def ep_step (c : ContractInfo) (src_by_file : List (String × String))
    (fi : FunctionInfo) : Option EntrypointInfo :=
  if is_entrypoint fi = false then none
  else
    let decl_file := decl_file_of c fi
    if decl_file ≠ "" ∧ c.file ≠ "" ∧ decl_file ≠ c.file then none
    else
      let src := lookupD src_by_file decl_file
      let fn_src := slice_src src fi.src_start fi.src_len
      if 0 < fi.src_start ∧ 0 < fi.src_len ∧ fn_src = "" then none
      else some
        { contract := c.name
          contract_kind := c.kind
          file := c.file
          signature := fi.signature
          name := fi.name
          visibility := fi.visibility
          mutability := fi.mutability
          modifiers := fi.modifiers
          line := fi.line
          tags := entrypoint_tags fi fn_src }

/-- Code-point lexicographic comparison of character lists, the order
Python uses to compare strings. -/
def listLE : List Char → List Char → Bool
  | [], _ => true
  | _ :: _, [] => false
  | x :: xs, y :: ys =>
    if x.toNat < y.toNat then true
    else if y.toNat < x.toNat then false
    else listLE xs ys

/-- Python string comparison `a <= b` (code-point lexicographic). -/
def strLE (a b : String) : Bool :=
  listLE a.toList b.toList

/-- The comparator of the final `sorted` of `collect_entrypoints`:
lexicographic on `(file, contract, bucket, line, name)`.  In each branch
guarded by inequality of the components, `strLE` coincides with the
strict comparison Python performs on the key tuples. -/
def ep_le (a b : EntrypointInfo) : Bool :=
  if a.file ≠ b.file then strLE a.file b.file
  else if a.contract ≠ b.contract then strLE a.contract b.contract
  else if bucket_ep a.name a.mutability ≠ bucket_ep b.name b.mutability then
    decide (bucket_ep a.name a.mutability < bucket_ep b.name b.mutability)
  else if a.line ≠ b.line then decide (a.line < b.line)
  else strLE a.name b.name

/-- `collect_entrypoints` of `analyzers/entrypoints.py`. -/
def collect_entrypoints (contracts : List ContractInfo)
    (src_by_file : List (String × String)) : List EntrypointInfo :=
  (contracts.flatMap (fun c => c.functions.filterMap (ep_step c src_by_file))).mergeSort ep_le

/-- `_detect_balanceof` of `analyzers/sinks.py`: the pair
`(has, self)` of the balance-read scan; the self form is matched on the
whitespace-normalized lower-cased excerpt. -/
def detect_balanceof (fn_src : String) : Bool × Bool :=
  if fn_src = "" then (false, false)
  else
    let low := lowerStr fn_src
    (containsSub low "balanceof(",
     containsSub (stripWS low) "balanceof(address(this))")

/-- The tag accumulation of the loop body of `collect_sinks`
(`analyzers/sinks.py`). -/
def sink_tags_of (fn_src : String) : List String :=
  let cd := detect_calls_out fn_src
  let t0 := if cd.1 then ["calls-out"] else []
  let t1 := if cd.2 then t0 ++ ["delegatecall"] else t0
  let b := detect_balanceof fn_src
  let t2 := if b.1 then t1 ++ ["balanceOf"] else t1
  if b.2 then t2 ++ ["balanceOf:self"] else t2

/-- One iteration of the function loop of `collect_sinks`: source
slicing, tag detection, and emission only when at least one tag was
earned. -/
def sink_step (c : ContractInfo) (src_by_file : List (String × String))
    (fi : FunctionInfo) : Option SinkInfo :=
  let decl_file := decl_file_of c fi
  let src := lookupD src_by_file decl_file
  let fn_src := slice_src src fi.src_start fi.src_len
  let tags := sink_tags_of fn_src
  if tags = [] then none
  else some
    { contract := c.name
      contract_kind := c.kind
      file := decl_file
      signature := fi.signature
      name := fi.name
      visibility := fi.visibility
      mutability := fi.mutability
      modifiers := fi.modifiers
      line := fi.line
      tags := tags }

/-- The comparator of the final `sorted` of `collect_sinks`:
lexicographic on `(file, contract, line, name)`. -/
def sink_le (a b : SinkInfo) : Bool :=
  if a.file ≠ b.file then strLE a.file b.file
  else if a.contract ≠ b.contract then strLE a.contract b.contract
  else if a.line ≠ b.line then decide (a.line < b.line)
  else strLE a.name b.name

/-- `collect_sinks` of `analyzers/sinks.py`. -/
def collect_sinks (contracts : List ContractInfo)
    (src_by_file : List (String × String)) : List SinkInfo :=
  (contracts.flatMap (fun c => c.functions.filterMap (sink_step c src_by_file))).mergeSort sink_le

/-- `vis_order` of `indexer.py` (`sort_key` closure):
`{"external": 0, "public": 1, "internal": 2, "private": 3}` with default
`99`. -/
def vis_order (v : String) : Nat :=
  if v = "external" then 0
  else if v = "public" then 1
  else if v = "internal" then 2
  else if v = "private" then 3
  else 99

/-- The mutability rank of `sort_key` in `indexer.py`:
`{"payable": 0, "view": 1, "pure": 2}` with default `3`. -/
def mut_rank (m : String) : Nat :=
  if m = "payable" then 0
  else if m = "view" then 1
  else if m = "pure" then 2
  else 3

/-- `sort_key` of `indexer.py`: the tuple
`(vis_order, payable-first, mut_rank, name)`. -/
def sort_key (fi : FunctionInfo) : Nat × Nat × Nat × String :=
  (vis_order fi.visibility,
   if fi.mutability = "payable" then 0 else 1,
   mut_rank fi.mutability,
   fi.name)

/-- The non-strict comparator induced by `sort_key` under the
lexicographic tuple order Python uses when sorting by key tuples. -/
def fn_le (a b : FunctionInfo) : Bool :=
  if (sort_key a).1 ≠ (sort_key b).1 then decide ((sort_key a).1 < (sort_key b).1)
  else if (sort_key a).2.1 ≠ (sort_key b).2.1 then
    decide ((sort_key a).2.1 < (sort_key b).2.1)
  else if (sort_key a).2.2.1 ≠ (sort_key b).2.2.1 then
    decide ((sort_key a).2.2.1 < (sort_key b).2.2.1)
  else strLE (sort_key a).2.2.2 (sort_key b).2.2.2

/-- `funcs = sorted(funcs, key=sort_key)` of `indexer.py`: Python sorted
is the stable sort by the key tuple, i.e. the stable merge sort by
`fn_le`. -/
def sort_functions (l : List FunctionInfo) : List FunctionInfo :=
  l.mergeSort fn_le

/-- Substring containment is monotone under pattern shortening: if `p`
occurs in `s` and `q` is a prefix of `p`, then `q` occurs in `s`. -/
lemma containsSub_mono {s p q : String} (h : containsSub s p = true)
    (hq : q.toList <+: p.toList) : containsSub s q = true := by
  unfold containsSub at *
  exact decide_eq_true (hq.isInfix.trans (of_decide_eq_true h))

/-- The delegated-execution marker is itself one of the call markers, so
the delegate flag of `_detect_calls_out` forces the calls-out flag. -/
lemma detect_calls_out_delegate (s : String) :
    (detect_calls_out s).2 = true → (detect_calls_out s).1 = true := by
  unfold detect_calls_out
  by_cases h : s = ""
  · simp [h]
  · rw [if_neg h]
    dsimp only
    intro hd
    exact List.any_eq_true.mpr
      ⟨".delegatecall(", show ".delegatecall(" ∈ CALLS_OUT_MARKERS by decide, hd⟩

/-- Unfolding of a successful `ep_step`: the produced record copies the
function and contract fields, reports the contract file, and carries
exactly the accumulated tags. -/
lemma ep_step_some {c : ContractInfo} {m : List (String × String)}
    {fi : FunctionInfo} {ep : EntrypointInfo} (h : ep_step c m fi = some ep) :
    is_entrypoint fi = true
    ∧ ¬(decl_file_of c fi ≠ "" ∧ c.file ≠ "" ∧ decl_file_of c fi ≠ c.file)
    ∧ ¬(0 < fi.src_start ∧ 0 < fi.src_len ∧
        slice_src (lookupD m (decl_file_of c fi)) fi.src_start fi.src_len = "")
    ∧ ep = { contract := c.name, contract_kind := c.kind, file := c.file,
             signature := fi.signature, name := fi.name,
             visibility := fi.visibility, mutability := fi.mutability,
             modifiers := fi.modifiers, line := fi.line,
             tags := entrypoint_tags fi
               (slice_src (lookupD m (decl_file_of c fi)) fi.src_start fi.src_len) } := by
  unfold ep_step at h
  split at h
  · exact absurd h (by simp)
  next h1 =>
    dsimp only at h
    split at h
    · exact absurd h (by simp)
    next h2 =>
      split at h
      · exact absurd h (by simp)
      next h3 =>
        exact ⟨by simpa using h1, h2, h3, (Option.some.inj h).symm⟩

/-- Converse direction: an eligible, unsuppressed function always
produces a record. -/
lemma ep_step_emits {c : ContractInfo} {m : List (String × String)}
    {fi : FunctionInfo} (h1 : is_entrypoint fi = true)
    (h2 : ¬(decl_file_of c fi ≠ "" ∧ c.file ≠ "" ∧ decl_file_of c fi ≠ c.file))
    (h3 : ¬(0 < fi.src_start ∧ 0 < fi.src_len ∧
        slice_src (lookupD m (decl_file_of c fi)) fi.src_start fi.src_len = "")) :
    (ep_step c m fi).isSome = true := by
  unfold ep_step
  simp [h1, h2, h3]

/-- Membership in the entrypoint output list is exactly a successful
`ep_step` on some function of some contract of the input. -/
lemma mem_collect_entrypoints {contracts : List ContractInfo}
    {m : List (String × String)} {ep : EntrypointInfo} :
    ep ∈ collect_entrypoints contracts m ↔
      ∃ c ∈ contracts, ∃ fi ∈ c.functions, ep_step c m fi = some ep := by
  unfold collect_entrypoints
  rw [List.mem_mergeSort, List.mem_flatMap]
  simp [List.mem_filterMap]

/-- Unfolding of a successful `sink_step`. -/
lemma sink_step_some {c : ContractInfo} {m : List (String × String)}
    {fi : FunctionInfo} {sk : SinkInfo} (h : sink_step c m fi = some sk) :
    sink_tags_of (slice_src (lookupD m (decl_file_of c fi)) fi.src_start fi.src_len) ≠ []
    ∧ sk = { contract := c.name, contract_kind := c.kind,
             file := decl_file_of c fi, signature := fi.signature,
             name := fi.name, visibility := fi.visibility,
             mutability := fi.mutability, modifiers := fi.modifiers,
             line := fi.line,
             tags := sink_tags_of
               (slice_src (lookupD m (decl_file_of c fi)) fi.src_start fi.src_len) } := by
  unfold sink_step at h
  dsimp only at h
  split at h
  · exact absurd h (by simp)
  next h1 => exact ⟨h1, (Option.some.inj h).symm⟩

/-- Membership in the sink output list is exactly a successful
`sink_step` on some function of some contract of the input. -/
lemma mem_collect_sinks {contracts : List ContractInfo}
    {m : List (String × String)} {sk : SinkInfo} :
    sk ∈ collect_sinks contracts m ↔
      ∃ c ∈ contracts, ∃ fi ∈ c.functions, sink_step c m fi = some sk := by
  unfold collect_sinks
  rw [List.mem_mergeSort, List.mem_flatMap]
  simp [List.mem_filterMap]

/-- Complete membership characterization of the entrypoint tag list, by
case analysis over the five boolean signals that drive it. -/
lemma entrypoint_tags_mem (fi : FunctionInfo) (fn_src : String) :
    ("guarded" ∈ entrypoint_tags fi fn_src ↔ is_guarded fi.modifiers = true)
    ∧ ("guarded-inline" ∈ entrypoint_tags fi fn_src ↔
        (is_guarded fi.modifiers = false ∧ has_inline_sender_guard fn_src = true))
    ∧ ("for-all" ∈ entrypoint_tags fi fn_src ↔
        (is_guarded fi.modifiers = false ∧ has_inline_sender_guard fn_src = false))
    ∧ ("admin-ish" ∈ entrypoint_tags fi fn_src ↔
        (adminish_tag fi.name = true ∧
          (is_guarded fi.modifiers = true ∨ has_inline_sender_guard fn_src = true)))
    ∧ ("admin-ish (no-guard)" ∈ entrypoint_tags fi fn_src ↔
        (adminish_tag fi.name = true ∧ is_guarded fi.modifiers = false
          ∧ has_inline_sender_guard fn_src = false))
    ∧ ("calls-out" ∈ entrypoint_tags fi fn_src ↔ (detect_calls_out fn_src).1 = true)
    ∧ ("delegatecall" ∈ entrypoint_tags fi fn_src ↔ (detect_calls_out fn_src).2 = true)
    ∧ ("value" ∈ entrypoint_tags fi fn_src ↔ fi.mutability = "payable") := by
  unfold entrypoint_tags
  rcases hcd : detect_calls_out fn_src with ⟨co, hd⟩
  cases hg : is_guarded fi.modifiers <;>
    cases hi : has_inline_sender_guard fn_src <;>
      cases ha : adminish_tag fi.name <;>
        cases co <;> cases hd <;>
          by_cases hp : fi.mutability = "payable" <;>
            simp [hp, set_first]

/-- Complete membership characterization of the sink tag list. -/
lemma sink_tags_mem (fn_src : String) :
    ("calls-out" ∈ sink_tags_of fn_src ↔ (detect_calls_out fn_src).1 = true)
    ∧ ("delegatecall" ∈ sink_tags_of fn_src ↔ (detect_calls_out fn_src).2 = true)
    ∧ ("balanceOf" ∈ sink_tags_of fn_src ↔ (detect_balanceof fn_src).1 = true)
    ∧ ("balanceOf:self" ∈ sink_tags_of fn_src ↔ (detect_balanceof fn_src).2 = true) := by
  unfold sink_tags_of
  rcases hcd : detect_calls_out fn_src with ⟨co, hd⟩
  rcases hb : detect_balanceof fn_src with ⟨b1, b2⟩
  cases co <;> cases hd <;> cases b1 <;> cases b2 <;> simp

/-- `listLE` is total. -/
lemma listLE_total : ∀ a b : List Char, listLE a b = true ∨ listLE b a = true := by
  intro a
  induction a with
  | nil => intro b; exact Or.inl rfl
  | cons x xs ih =>
    intro b
    cases b with
    | nil => exact Or.inr rfl
    | cons y ys =>
      unfold listLE
      rcases Nat.lt_trichotomy x.toNat y.toNat with h | h | h
      · left; simp [h]
      · have h2 : ¬ x.toNat < y.toNat := by omega
        have h3 : ¬ y.toNat < x.toNat := by omega
        rcases ih ys with hl | hl
        · left; simp [h2, h3, hl]
        · right; simp [h2, h3, h, hl]
      · right; simp [h, Nat.lt_asymm h]

/-- `listLE` is transitive. -/
lemma listLE_trans : ∀ a b c : List Char,
    listLE a b = true → listLE b c = true → listLE a c = true := by
  intro a
  induction a with
  | nil => intro b c _ _; rfl
  | cons x xs ih =>
    intro b c hab hbc
    cases b with
    | nil => simp [listLE] at hab
    | cons y ys =>
      cases c with
      | nil => simp [listLE] at hbc
      | cons z zs =>
        unfold listLE at hab hbc ⊢
        by_cases h1 : x.toNat < y.toNat <;> by_cases h2 : y.toNat < x.toNat <;>
          by_cases h3 : y.toNat < z.toNat <;> by_cases h4 : z.toNat < y.toNat <;>
            by_cases h5 : x.toNat < z.toNat <;> by_cases h6 : z.toNat < x.toNat <;>
              simp only [h1, h2, h3, h4, h5, h6, if_true, if_false,
                if_pos, if_neg, not_false_iff] at hab hbc ⊢ <;>
                first
                | rfl
                | omega
                | exact ih ys zs hab hbc
                | exact Bool.noConfusion hab
                | exact Bool.noConfusion hbc

/-- `listLE` is antisymmetric. -/
lemma listLE_antisymm : ∀ a b : List Char,
    listLE a b = true → listLE b a = true → a = b := by
  intro a
  induction a with
  | nil =>
    intro b _ hba
    cases b with
    | nil => rfl
    | cons y ys => simp [listLE] at hba
  | cons x xs ih =>
    intro b hab hba
    cases b with
    | nil => simp [listLE] at hab
    | cons y ys =>
      unfold listLE at hab hba
      rcases Nat.lt_trichotomy x.toNat y.toNat with h | h | h
      · rw [if_neg (by omega), if_pos h] at hba
        exact absurd hba (by simp)
      · have hxy : x = y := Char.ext (UInt32.ext h)
        subst hxy
        rw [if_neg (by omega), if_neg (by omega)] at hab
        rw [if_neg (by omega), if_neg (by omega)] at hba
        rw [ih ys hab hba]
      · rw [if_neg (by omega), if_pos h] at hab
        exact absurd hab (by simp)

/-- Propositional characterization of `fn_le`: the lexicographic order
on the `sort_key` tuples. -/
lemma fn_le_iff (a b : FunctionInfo) : fn_le a b = true ↔
    ((sort_key a).1 < (sort_key b).1
      ∨ ((sort_key a).1 = (sort_key b).1
        ∧ ((sort_key a).2.1 < (sort_key b).2.1
          ∨ ((sort_key a).2.1 = (sort_key b).2.1
            ∧ ((sort_key a).2.2.1 < (sort_key b).2.2.1
              ∨ ((sort_key a).2.2.1 = (sort_key b).2.2.1
                ∧ strLE (sort_key a).2.2.2 (sort_key b).2.2.2 = true)))))) := by
  unfold fn_le
  by_cases h1 : (sort_key a).1 = (sort_key b).1
  · rw [if_neg (not_ne_iff.mpr h1)]
    by_cases h2 : (sort_key a).2.1 = (sort_key b).2.1
    · rw [if_neg (not_ne_iff.mpr h2)]
      by_cases h3 : (sort_key a).2.2.1 = (sort_key b).2.2.1
      · rw [if_neg (not_ne_iff.mpr h3)]
        constructor
        · intro h; exact Or.inr ⟨h1, Or.inr ⟨h2, Or.inr ⟨h3, h⟩⟩⟩
        · rintro (h | ⟨-, h | ⟨-, h | ⟨-, h⟩⟩⟩)
          · exact absurd h (by omega)
          · exact absurd h (by omega)
          · exact absurd h (by omega)
          · exact h
      · rw [if_pos h3]
        constructor
        · intro h; exact Or.inr ⟨h1, Or.inr ⟨h2, Or.inl (of_decide_eq_true h)⟩⟩
        · rintro (h | ⟨-, h | ⟨-, h | ⟨e3, -⟩⟩⟩)
          · exact absurd h (by omega)
          · exact absurd h (by omega)
          · exact decide_eq_true h
          · exact absurd e3 h3
    · rw [if_pos h2]
      constructor
      · intro h; exact Or.inr ⟨h1, Or.inl (of_decide_eq_true h)⟩
      · rintro (h | ⟨-, h | ⟨e2, -⟩⟩)
        · exact absurd h (by omega)
        · exact decide_eq_true h
        · exact absurd e2 h2
  · rw [if_pos h1]
    constructor
    · intro h; exact Or.inl (of_decide_eq_true h)
    · rintro (h | ⟨e1, -⟩)
      · exact decide_eq_true h
      · exact absurd e1 h1

/-- `fn_le` is total. -/
lemma fn_le_total : ∀ a b : FunctionInfo, (fn_le a b || fn_le b a) = true := by
  intro a b
  rw [Bool.or_eq_true, fn_le_iff, fn_le_iff]
  rcases Nat.lt_trichotomy (sort_key a).1 (sort_key b).1 with h1 | h1 | h1
  · exact Or.inl (Or.inl h1)
  · rcases Nat.lt_trichotomy (sort_key a).2.1 (sort_key b).2.1 with h2 | h2 | h2
    · exact Or.inl (Or.inr ⟨h1, Or.inl h2⟩)
    · rcases Nat.lt_trichotomy (sort_key a).2.2.1 (sort_key b).2.2.1 with h3 | h3 | h3
      · exact Or.inl (Or.inr ⟨h1, Or.inr ⟨h2, Or.inl h3⟩⟩)
      · rcases listLE_total (sort_key a).2.2.2.toList (sort_key b).2.2.2.toList with h4 | h4
        · exact Or.inl (Or.inr ⟨h1, Or.inr ⟨h2, Or.inr ⟨h3, h4⟩⟩⟩)
        · exact Or.inr (Or.inr ⟨h1.symm, Or.inr ⟨h2.symm, Or.inr ⟨h3.symm, h4⟩⟩⟩)
      · exact Or.inr (Or.inr ⟨h1.symm, Or.inr ⟨h2.symm, Or.inl h3⟩⟩)
    · exact Or.inr (Or.inr ⟨h1.symm, Or.inl h2⟩)
  · exact Or.inr (Or.inl h1)

/-- `fn_le` is transitive. -/
lemma fn_le_trans : ∀ a b c : FunctionInfo,
    fn_le a b = true → fn_le b c = true → fn_le a c = true := by
  intro a b c hab hbc
  rw [fn_le_iff] at hab hbc ⊢
  rcases hab with h1 | ⟨e1, h2 | ⟨e2, h3 | ⟨e3, h4⟩⟩⟩ <;>
    rcases hbc with g1 | ⟨f1, g2 | ⟨f2, g3 | ⟨f3, g4⟩⟩⟩ <;>
      first
      | exact Or.inl (by omega)
      | exact Or.inr ⟨by omega, Or.inl (by omega)⟩
      | exact Or.inr ⟨by omega, Or.inr ⟨by omega, Or.inl (by omega)⟩⟩
      | exact Or.inr ⟨by omega, Or.inr ⟨by omega, Or.inr ⟨by omega,
          listLE_trans _ _ _ h4 g4⟩⟩⟩

/-- Mutual `fn_le` forces equal sort keys. -/
lemma fn_le_antisymm : ∀ a b : FunctionInfo,
    fn_le a b = true → fn_le b a = true → sort_key a = sort_key b := by
  intro a b hab hba
  rw [fn_le_iff] at hab hba
  rcases hab with h1 | ⟨e1, h2 | ⟨e2, h3 | ⟨e3, h4⟩⟩⟩ <;>
    rcases hba with g1 | ⟨f1, g2 | ⟨f2, g3 | ⟨f3, g4⟩⟩⟩ <;>
      first
      | omega
      | exact Prod.ext (by omega) (Prod.ext (by omega) (Prod.ext (by omega)
          (congrArg String.mk (listLE_antisymm _ _ h4 g4))))

/-- Two lists that are permutations of each other, both sorted by a
total boolean relation that is antisymmetric on their members, are
equal. -/
lemma pairwise_perm_eq {α : Type} (r : α → α → Bool) :
    ∀ (l₁ l₂ : List α), l₁.Perm l₂ →
      l₁.Pairwise (fun a b => r a b = true) →
      l₂.Pairwise (fun a b => r a b = true) →
      (∀ a ∈ l₁, ∀ b ∈ l₁, r a b = true → r b a = true → a = b) →
      l₁ = l₂ := by
  intro l₁
  induction l₁ with
  | nil =>
    intro l₂ hperm _ _ _
    exact hperm.symm.eq_nil.symm
  | cons a t₁ ih =>
    intro l₂ hperm hp1 hp2 hanti
    cases l₂ with
    | nil => exact absurd hperm.eq_nil (by simp)
    | cons b t₂ =>
      have hab : a = b := by
        have ha2 : a ∈ b :: t₂ := hperm.subset (List.mem_cons_self a t₁)
        have hb1 : b ∈ a :: t₁ := hperm.symm.subset (List.mem_cons_self b t₂)
        rcases List.mem_cons.mp ha2 with h | hat2
        · exact h
        rcases List.mem_cons.mp hb1 with h | hbt1
        · exact h.symm
        have hr1 : r a b = true := (List.pairwise_cons.mp hp1).1 b hbt1
        have hr2 : r b a = true := (List.pairwise_cons.mp hp2).1 a hat2
        exact hanti a (List.mem_cons_self a t₁) b (List.mem_cons.mpr (Or.inr hbt1)) hr1 hr2
      subst hab
      have ht : t₁ = t₂ :=
        ih t₂ hperm.cons_inv (List.pairwise_cons.mp hp1).2 (List.pairwise_cons.mp hp2).2
          (fun x hx y hy => hanti x (List.mem_cons.mpr (Or.inr hx))
            y (List.mem_cons.mpr (Or.inr hy)))
      rw [ht]

/-- Evaluation of the stable merge sort on a two-element list. -/
lemma mergeSort_pair {α : Type} (r : α → α → Bool) (a b : α) :
    [a, b].mergeSort r = if r a b then [a, b] else [b, a] := by
  simp [List.mergeSort, List.merge]

/-- Claim C2: `slice_src` returns the empty string when `start ≤ 0`,
`length ≤ 0`, or `start ≥ len(text)`, and otherwise returns
`text[start : min(len(text), start + length)]`; in particular
`slice(text, 0, 5) = ""`, `slice(text, 3, 0) = ""`,
`slice(text, len(text) + 1, 10) = ""`, and
`slice("abcdef", 2, 3) = "cde"`. -/
theorem slice_src_spec (text : String) (start length : Int) :
    (start ≤ 0 ∨ length ≤ 0 ∨ (text.length : Int) ≤ start →
      slice_src text start length = "")
    ∧ (0 < start → 0 < length → start < (text.length : Int) →
      slice_src text start length =
        String.mk ((text.toList.take
          (min text.length (start.toNat + length.toNat))).drop start.toNat))
    ∧ slice_src text 0 5 = ""
    ∧ slice_src text 3 0 = ""
    ∧ slice_src text ((text.length : Int) + 1) 10 = ""
    ∧ slice_src "abcdef" 2 3 = "cde" := by
  refine ⟨?_, ?_, ?_, ?_, ?_, by decide⟩
  · intro h
    unfold slice_src
    by_cases h1 : start ≤ 0 ∨ length ≤ 0
    · rw [if_pos h1]
    · rw [if_neg h1]
      rcases h with h | h | h
      · exact absurd (Or.inl h) h1
      · exact absurd (Or.inr h) h1
      · rw [if_pos h]
  · intro h1 h2 h3
    unfold slice_src
    rw [if_neg (by omega), if_neg (by omega)]
    dsimp only
    rw [List.drop_take]
  · unfold slice_src
    rw [if_pos (Or.inl le_rfl)]
  · unfold slice_src
    rw [if_pos (Or.inr le_rfl)]
  · unfold slice_src
    by_cases h1 : (text.length : Int) + 1 ≤ 0 ∨ (10 : Int) ≤ 0
    · rw [if_pos h1]
    · rw [if_neg h1, if_pos (by omega)]

/-- Witness for C2: the guard case and the in-range case of
`slice_src_spec` at concrete inputs. -/
theorem slice_src_spec_witness :
    slice_src "ab" 0 5 = ""
    ∧ slice_src "abcdef" 2 3 =
        String.mk ((("abcdef" : String).toList.take
          (min ("abcdef" : String).length ((2 : Int).toNat + (3 : Int).toNat))).drop
          (2 : Int).toNat) :=
  ⟨(slice_src_spec "ab" 0 5).1 (by decide),
   (slice_src_spec "abcdef" 2 3).2.1 (by decide) (by decide) (by decide)⟩

/-- The `setOwner` scenario record of claim C4. -/
def c4_fn : FunctionInfo :=
  { name := "setOwner", signature := "setOwner(address o)", visibility := "public",
    mutability := "nonpayable", modifiers := [], line := 1,
    src_start := 1, src_len := 10 }

/-- Host contract of the C4 scenario. -/
def c4_contract : ContractInfo :=
  { name := "C", kind := "contract", file := "a.sol", functions := [c4_fn],
    has_receive := false, has_fallback := false }

/-- Source map of the C4 scenario; the slice of `c4_fn` is exactly
`"owner = o;"`. -/
def c4_src : List (String × String) := [("a.sol", " owner = o;")]

/-- The entrypoint record produced by the C4 scenario. -/
def c4_ep : EntrypointInfo :=
  { contract := "C", contract_kind := "contract", file := "a.sol",
    signature := "setOwner(address o)", name := "setOwner",
    visibility := "public", mutability := "nonpayable", modifiers := [],
    line := 1, tags := ["for-all", "admin-ish (no-guard)"] }

/-- Claim C4: a public, non-payable function named `setOwner` with no
modifiers and body text exactly `owner = o;` is tagged
`["for-all", "admin-ish (no-guard)"]`, in that order. -/
theorem setOwner_scenario :
    slice_src (lookupD c4_src c4_contract.file) c4_fn.src_start c4_fn.src_len
        = "owner = o;"
    ∧ (collect_entrypoints [c4_contract] c4_src).map EntrypointInfo.tags
        = [["for-all", "admin-ish (no-guard)"]] := by
  constructor
  · decide
  · have h : [c4_contract].flatMap (fun c => c.functions.filterMap (ep_step c c4_src))
        = [c4_ep] := by decide
    unfold collect_entrypoints
    rw [h, List.mergeSort_singleton]
    decide

/-- The sink-scenario function record of claim C8 (the generous
`src_len` makes the slice reach the end of the file text). -/
def c8_fn : FunctionInfo :=
  { name := "skim", signature := "skim()", visibility := "public",
    mutability := "nonpayable", modifiers := [], line := 1,
    src_start := 1, src_len := 100 }

/-- Host contract of the first C8 scenario. -/
def c8a_contract : ContractInfo :=
  { name := "T", kind := "contract", file := "t.sol", functions := [c8_fn],
    has_receive := false, has_fallback := false }

/-- Source map of the first C8 scenario: the excerpt contains
`balanceOf(address(this))`. -/
def c8a_src : List (String × String) := [("t.sol", "Qx = balanceOf(address(this));")]

/-- Host contract of the second C8 scenario. -/
def c8b_contract : ContractInfo :=
  { name := "U", kind := "contract", file := "u.sol", functions := [c8_fn],
    has_receive := false, has_fallback := false }

/-- Source map of the second C8 scenario: the excerpt contains only
`token.balanceOf(user)`. -/
def c8b_src : List (String × String) := [("u.sol", "Qtoken.balanceOf(user);")]

/-- The sink record produced by the first C8 scenario. -/
def c8a_sk : SinkInfo :=
  { contract := "T", contract_kind := "contract", file := "t.sol",
    signature := "skim()", name := "skim", visibility := "public",
    mutability := "nonpayable", modifiers := [], line := 1,
    tags := ["balanceOf", "balanceOf:self"] }

/-- The sink record produced by the second C8 scenario. -/
def c8b_sk : SinkInfo :=
  { contract := "U", contract_kind := "contract", file := "u.sol",
    signature := "skim()", name := "skim", visibility := "public",
    mutability := "nonpayable", modifiers := [], line := 1,
    tags := ["balanceOf"] }

/-- Claim C8: the balance-read detector fires exactly on the textual
pattern (with the self form matched on the whitespace-normalized
excerpt), the sink tagger adds `balanceOf` and `balanceOf:self`
accordingly, and the two concrete scenarios produce the claimed tag
lists. -/
theorem balanceof_detection :
    (∀ s : String, detect_balanceof s =
      (containsSub (lowerStr s) "balanceof(",
       containsSub (stripWS (lowerStr s)) "balanceof(address(this))"))
    ∧ (∀ s : String,
        ("balanceOf" ∈ sink_tags_of s ↔ (detect_balanceof s).1 = true)
        ∧ ("balanceOf:self" ∈ sink_tags_of s ↔ (detect_balanceof s).2 = true))
    ∧ (collect_sinks [c8a_contract] c8a_src).map SinkInfo.tags
        = [["balanceOf", "balanceOf:self"]]
    ∧ (collect_sinks [c8b_contract] c8b_src).map SinkInfo.tags
        = [["balanceOf"]] := by
  refine ⟨?_, ?_, ?_, ?_⟩
  · intro s
    by_cases h : s = ""
    · subst h; decide
    · unfold detect_balanceof
      rw [if_neg h]
  · intro s
    exact ⟨(sink_tags_mem s).2.2.1, (sink_tags_mem s).2.2.2⟩
  · have h : [c8a_contract].flatMap (fun c => c.functions.filterMap (sink_step c c8a_src))
        = [c8a_sk] := by decide
    unfold collect_sinks
    rw [h, List.mergeSort_singleton]
    decide
  · have h : [c8b_contract].flatMap (fun c => c.functions.filterMap (sink_step c c8b_src))
        = [c8b_sk] := by decide
    unfold collect_sinks
    rw [h, List.mergeSort_singleton]
    decide

/-- An eligible public function whose source cannot be sliced (its file
is absent from the source map): the eligibility-suppression
counterexample record for claim C1. -/
def c1x_fn : FunctionInfo :=
  { name := "ping", signature := "ping()", visibility := "public",
    mutability := "nonpayable", modifiers := [], line := 1,
    src_start := 5, src_len := 3 }

/-- Host contract of the C1 counterexample. -/
def c1x_contract : ContractInfo :=
  { name := "A", kind := "contract", file := "a.sol", functions := [c1x_fn],
    has_receive := false, has_fallback := false }

/-- Counterexample to claim C1 as stated: `c1x_fn` is eligible
(public) and belongs to the contract, yet the entrypoint tagger run
with an empty source map emits nothing, because the slice-failure
suppression drops the function.  Eligibility is therefore not
sufficient for membership. -/
theorem entrypoint_eligibility_not_sufficient :
    is_entrypoint c1x_fn = true
    ∧ c1x_fn ∈ c1x_contract.functions
    ∧ collect_entrypoints [c1x_contract] [] = [] := by
  refine ⟨rfl, by decide, ?_⟩
  have h : [c1x_contract].flatMap (fun c => c.functions.filterMap (ep_step c []))
      = [] := by decide
  unfold collect_entrypoints
  rw [h, List.mergeSort_nil]

/-- Claim C1 (amended): membership in the entrypoint output implies
eligibility, every successful step lands in the output, and a function
record produces an entrypoint record iff it is eligible and survives
both the cross-file suppression and the slice-failure suppression. -/
theorem entrypoint_membership_characterization (contracts : List ContractInfo)
    (m : List (String × String)) :
    (∀ ep ∈ collect_entrypoints contracts m,
      ep.visibility = "public" ∨ ep.visibility = "external"
        ∨ ep.name = "receive" ∨ ep.name = "fallback")
    ∧ (∀ c ∈ contracts, ∀ fi ∈ c.functions, ∀ ep, ep_step c m fi = some ep →
        ep ∈ collect_entrypoints contracts m)
    ∧ (∀ c ∈ contracts, ∀ fi ∈ c.functions,
        ((ep_step c m fi).isSome = true ↔
          (is_entrypoint fi = true
            ∧ ¬(decl_file_of c fi ≠ "" ∧ c.file ≠ "" ∧ decl_file_of c fi ≠ c.file)
            ∧ ¬(0 < fi.src_start ∧ 0 < fi.src_len ∧
                slice_src (lookupD m (decl_file_of c fi)) fi.src_start fi.src_len = "")))) := by
  refine ⟨?_, ?_, ?_⟩
  · intro ep hep
    obtain ⟨c, hc, fi, hfi, hstep⟩ := mem_collect_entrypoints.mp hep
    obtain ⟨helig, -, -, heq⟩ := ep_step_some hstep
    subst heq
    simpa [is_entrypoint, or_assoc] using helig
  · intro c hc fi hfi ep hstep
    exact mem_collect_entrypoints.mpr ⟨c, hc, fi, hfi, hstep⟩
  · intro c hc fi hfi
    constructor
    · intro hsome
      obtain ⟨ep, hep⟩ := Option.isSome_iff_exists.mp hsome
      obtain ⟨h1, h2, h3, -⟩ := ep_step_some hep
      exact ⟨h1, h2, h3⟩
    · rintro ⟨h1, h2, h3⟩
      exact ep_step_emits h1 h2 h3

/-- Sliceable public function for the C1 witness. -/
def w1_fn : FunctionInfo :=
  { name := "ping", signature := "ping()", visibility := "public",
    mutability := "nonpayable", modifiers := [], line := 1,
    src_start := 1, src_len := 4 }

/-- Host contract of the C1 witness. -/
def w1_contract : ContractInfo :=
  { name := "A", kind := "contract", file := "a.sol", functions := [w1_fn],
    has_receive := false, has_fallback := false }

/-- Source map of the C1 witness. -/
def w1_src : List (String × String) := [("a.sol", " ping")]

/-- The entrypoint record the C1 witness setup produces. -/
def w1_ep : EntrypointInfo :=
  { contract := "A", contract_kind := "contract", file := "a.sol",
    signature := "ping()", name := "ping", visibility := "public",
    mutability := "nonpayable", modifiers := [], line := 1, tags := ["for-all"] }

/-- Witness for C1 (amended): all three parts of
`entrypoint_membership_characterization` discharged at a concrete
contract, source map, and function. -/
theorem entrypoint_membership_characterization_witness :
    (w1_ep.visibility = "public" ∨ w1_ep.visibility = "external"
      ∨ w1_ep.name = "receive" ∨ w1_ep.name = "fallback")
    ∧ w1_ep ∈ collect_entrypoints [w1_contract] w1_src
    ∧ (ep_step w1_contract w1_src w1_fn).isSome = true := by
  have h := entrypoint_membership_characterization [w1_contract] w1_src
  have hmem := h.2.1 w1_contract (by decide) w1_fn (by decide) w1_ep (by decide)
  exact ⟨h.1 w1_ep hmem, hmem,
    (h.2.2 w1_contract (by decide) w1_fn (by decide)).mpr (by decide)⟩

/-- Claim C3: the inline guard fires exactly when the stripped,
lower-cased excerpt contains `msg.sender` directly compared with one of
`==`, `!=`, `<`, `>` together with an `if(`/`require(`/`revert`
construct; when it fires and the tag set held `for-all`, that tag is
replaced by `guarded-inline`; the promotion never applies to a
modifier-guarded function. -/
theorem inline_guard_detection (fn_src : String) (fi : FunctionInfo) :
    (has_inline_sender_guard fn_src = true ↔
      ((containsSub (lowerStr (stripWS fn_src)) "msg.sender==" = true
        ∨ containsSub (lowerStr (stripWS fn_src)) "msg.sender!=" = true
        ∨ containsSub (lowerStr (stripWS fn_src)) "msg.sender<" = true
        ∨ containsSub (lowerStr (stripWS fn_src)) "msg.sender>" = true)
       ∧ (containsSub (lowerStr (stripWS fn_src)) "require(" = true
        ∨ containsSub (lowerStr (stripWS fn_src)) "revert" = true
        ∨ containsSub (lowerStr (stripWS fn_src)) "if(" = true)))
    ∧ (is_guarded fi.modifiers = false → has_inline_sender_guard fn_src = true →
        ("guarded-inline" ∈ entrypoint_tags fi fn_src
          ∧ "for-all" ∉ entrypoint_tags fi fn_src))
    ∧ (is_guarded fi.modifiers = true →
        "guarded-inline" ∉ entrypoint_tags fi fn_src) := by
  refine ⟨?_, ?_, ?_⟩
  · by_cases h0 : fn_src = ""
    · subst h0; decide
    · unfold has_inline_sender_guard
      rw [if_neg h0]
      dsimp only
      constructor
      · intro h
        split at h
        · exact absurd h (by simp)
        next hms =>
          split at h
          · exact absurd h (by simp)
          next hgate =>
            refine ⟨by simpa [or_assoc] using h, ?_⟩
            by_cases hr : containsSub (lowerStr (stripWS fn_src)) "require(" = true
            · exact Or.inl hr
            by_cases hv : containsSub (lowerStr (stripWS fn_src)) "revert" = true
            · exact Or.inr (Or.inl hv)
            by_cases hif : containsSub (lowerStr (stripWS fn_src)) "if(" = true
            · exact Or.inr (Or.inr hif)
            exact absurd ⟨by simpa using hr, by simpa using hv, by simpa using hif⟩ hgate
      · rintro ⟨hD, hgate⟩
        have hms : containsSub (lowerStr (stripWS fn_src)) "msg.sender" = true := by
          rcases hD with h | h | h | h <;> exact containsSub_mono h (by decide)
        have hgateF : ¬(containsSub (lowerStr (stripWS fn_src)) "require(" = false
            ∧ containsSub (lowerStr (stripWS fn_src)) "revert" = false
            ∧ containsSub (lowerStr (stripWS fn_src)) "if(" = false) := by
          rintro ⟨h1, h2, h3⟩
          rcases hgate with h | h | h
          · rw [h] at h1; exact absurd h1 (by simp)
          · rw [h] at h2; exact absurd h2 (by simp)
          · rw [h] at h3; exact absurd h3 (by simp)
        rw [if_neg (by simp [hms]), if_neg hgateF]
        rcases hD with h | h | h | h <;> simp [h]
  · intro hg hi
    have H := entrypoint_tags_mem fi fn_src
    refine ⟨H.2.1.mpr ⟨hg, hi⟩, fun hmem => ?_⟩
    have h2 := (H.2.2.1.mp hmem).2
    rw [hi] at h2
    exact absurd h2 (by simp)
  · intro hg hmem
    have h1 := ((entrypoint_tags_mem fi fn_src).2.1.mp hmem).1
    rw [hg] at h1
    exact absurd h1 (by simp)

/-- Excerpt with an inline sender guard, for the C3 witness. -/
def w3_src : String := "require(msg.sender==o);"

/-- Unguarded function record for the C3 witness. -/
def w3_fn : FunctionInfo :=
  { name := "touch", signature := "touch()", visibility := "public",
    mutability := "nonpayable", modifiers := [], line := 1 }

/-- Modifier-guarded function record for the C3 witness. -/
def w3g_fn : FunctionInfo :=
  { name := "touch", signature := "touch()", visibility := "public",
    mutability := "nonpayable", modifiers := ["onlyOwner"], line := 1 }

/-- Witness for C3: the promotion fires on an unguarded function with an
inline sender check, and never on a modifier-guarded one. -/
theorem inline_guard_detection_witness :
    ("guarded-inline" ∈ entrypoint_tags w3_fn w3_src
      ∧ "for-all" ∉ entrypoint_tags w3_fn w3_src)
    ∧ "guarded-inline" ∉ entrypoint_tags w3g_fn w3_src :=
  ⟨(inline_guard_detection w3_src w3_fn).2.1 (by decide) (by decide),
   (inline_guard_detection w3_src w3g_fn).2.2 (by decide)⟩

/-- Claim C5: on every emitted entrypoint tag set, `guarded` and
`guarded-inline` never co-occur, `for-all` co-occurs with neither, and
the two admin-ish tags are mutually exclusive. -/
theorem entrypoint_tag_exclusions (contracts : List ContractInfo)
    (m : List (String × String)) :
    ∀ ep ∈ collect_entrypoints contracts m,
      ¬("guarded" ∈ ep.tags ∧ "guarded-inline" ∈ ep.tags)
      ∧ ¬("for-all" ∈ ep.tags ∧ "guarded" ∈ ep.tags)
      ∧ ¬("for-all" ∈ ep.tags ∧ "guarded-inline" ∈ ep.tags)
      ∧ ¬("admin-ish" ∈ ep.tags ∧ "admin-ish (no-guard)" ∈ ep.tags) := by
  intro ep hep
  obtain ⟨c, hc, fi, hfi, hstep⟩ := mem_collect_entrypoints.mp hep
  obtain ⟨-, -, -, heq⟩ := ep_step_some hstep
  subst heq
  have H := entrypoint_tags_mem fi
    (slice_src (lookupD m (decl_file_of c fi)) fi.src_start fi.src_len)
  refine ⟨fun ⟨ha, hb⟩ => ?_, fun ⟨ha, hb⟩ => ?_,
    fun ⟨ha, hb⟩ => ?_, fun ⟨ha, hb⟩ => ?_⟩
  · have h1 := H.1.mp ha
    have h2 := (H.2.1.mp hb).1
    rw [h1] at h2
    exact absurd h2 (by simp)
  · have h1 := (H.2.2.1.mp ha).1
    have h2 := H.1.mp hb
    rw [h2] at h1
    exact absurd h1 (by simp)
  · have h1 := (H.2.2.1.mp ha).2
    have h2 := (H.2.1.mp hb).2
    rw [h2] at h1
    exact absurd h1 (by simp)
  · have h1 := (H.2.2.2.1.mp ha).2
    have h2 := (H.2.2.2.2.1.mp hb).2
    rcases h1 with h | h
    · rw [h2.1] at h; exact absurd h (by simp)
    · rw [h2.2] at h; exact absurd h (by simp)

/-- Witness for C5: the exclusions instantiated on the record produced
by the C4 scenario. -/
theorem entrypoint_tag_exclusions_witness :
    ¬("guarded" ∈ c4_ep.tags ∧ "guarded-inline" ∈ c4_ep.tags)
    ∧ ¬("for-all" ∈ c4_ep.tags ∧ "guarded" ∈ c4_ep.tags)
    ∧ ¬("for-all" ∈ c4_ep.tags ∧ "guarded-inline" ∈ c4_ep.tags)
    ∧ ¬("admin-ish" ∈ c4_ep.tags ∧ "admin-ish (no-guard)" ∈ c4_ep.tags) :=
  entrypoint_tag_exclusions [c4_contract] c4_src c4_ep
    (mem_collect_entrypoints.mpr ⟨c4_contract, by decide, c4_fn, by decide, by decide⟩)

/-- Claim C9: in every emitted tag set of both taggers, `delegatecall`
implies `calls-out`. -/
theorem delegatecall_implies_calls_out (contracts : List ContractInfo)
    (m : List (String × String)) :
    (∀ sk ∈ collect_sinks contracts m,
      "delegatecall" ∈ sk.tags → "calls-out" ∈ sk.tags)
    ∧ (∀ ep ∈ collect_entrypoints contracts m,
      "delegatecall" ∈ ep.tags → "calls-out" ∈ ep.tags) := by
  constructor
  · intro sk hsk hd
    obtain ⟨c, hc, fi, hfi, hstep⟩ := mem_collect_sinks.mp hsk
    obtain ⟨-, heq⟩ := sink_step_some hstep
    subst heq
    have H := sink_tags_mem
      (slice_src (lookupD m (decl_file_of c fi)) fi.src_start fi.src_len)
    exact H.1.mpr (detect_calls_out_delegate _ (H.2.1.mp hd))
  · intro ep hep hd
    obtain ⟨c, hc, fi, hfi, hstep⟩ := mem_collect_entrypoints.mp hep
    obtain ⟨-, -, -, heq⟩ := ep_step_some hstep
    subst heq
    have H := entrypoint_tags_mem fi
      (slice_src (lookupD m (decl_file_of c fi)) fi.src_start fi.src_len)
    exact (H.2.2.2.2.2.1).mpr (detect_calls_out_delegate _ ((H.2.2.2.2.2.2.1).mp hd))

/-- Function whose excerpt contains a delegatecall, for the C9 witness. -/
def w9_fn : FunctionInfo :=
  { name := "relay", signature := "relay()", visibility := "public",
    mutability := "nonpayable", modifiers := [], line := 1,
    src_start := 1, src_len := 100 }

/-- Host contract of the C9 witness. -/
def w9_contract : ContractInfo :=
  { name := "D", kind := "contract", file := "d.sol", functions := [w9_fn],
    has_receive := false, has_fallback := false }

/-- Source map of the C9 witness. -/
def w9_src : List (String × String) := [("d.sol", "Qa.delegatecall(b);")]

/-- The entrypoint record the C9 witness setup produces. -/
def w9_ep : EntrypointInfo :=
  { contract := "D", contract_kind := "contract", file := "d.sol",
    signature := "relay()", name := "relay", visibility := "public",
    mutability := "nonpayable", modifiers := [], line := 1,
    tags := ["for-all", "calls-out", "delegatecall"] }

/-- The sink record the C9 witness setup produces. -/
def w9_sk : SinkInfo :=
  { contract := "D", contract_kind := "contract", file := "d.sol",
    signature := "relay()", name := "relay", visibility := "public",
    mutability := "nonpayable", modifiers := [], line := 1,
    tags := ["calls-out", "delegatecall"] }

/-- Witness for C9: both implications discharged on a concrete
delegatecall-containing function. -/
theorem delegatecall_implies_calls_out_witness :
    "calls-out" ∈ w9_sk.tags ∧ "calls-out" ∈ w9_ep.tags :=
  ⟨(delegatecall_implies_calls_out [w9_contract] w9_src).1 w9_sk
      (mem_collect_sinks.mpr ⟨w9_contract, by decide, w9_fn, by decide, by decide⟩)
      (by decide),
   (delegatecall_implies_calls_out [w9_contract] w9_src).2 w9_ep
      (mem_collect_entrypoints.mpr ⟨w9_contract, by decide, w9_fn, by decide, by decide⟩)
      (by decide)⟩

/-- Public cross-file function under a contract whose own file is
unknown: the C6 counterexample record. -/
def c6x_fn : FunctionInfo :=
  { name := "ping", signature := "ping()", visibility := "public",
    mutability := "nonpayable", modifiers := [], line := 1,
    src_start := 1, src_len := 4, src_file := "b.sol" }

/-- Host contract of the C6 counterexample, with empty `file`. -/
def c6x_contract : ContractInfo :=
  { name := "B", kind := "contract", file := "", functions := [c6x_fn],
    has_receive := false, has_fallback := false }

/-- Source map of the C6 counterexample. -/
def c6x_src : List (String × String) := [("b.sol", " ping")]

/-- The entrypoint record the C6 counterexample setup produces. -/
def c6x_ep : EntrypointInfo :=
  { contract := "B", contract_kind := "contract", file := "",
    signature := "ping()", name := "ping", visibility := "public",
    mutability := "nonpayable", modifiers := [], line := 1,
    tags := ["for-all"] }

/-- Counterexample to claim C6 as stated: `c6x_fn` has a known
declaring file (`b.sol`) that differs from its contract file (empty),
yet the tagger still emits an entrypoint record for it — the suppression
additionally requires the contract file to be non-empty. -/
theorem cross_file_suppression_counterexample :
    decl_file_of c6x_contract c6x_fn ≠ ""
    ∧ decl_file_of c6x_contract c6x_fn ≠ c6x_contract.file
    ∧ c6x_fn ∈ c6x_contract.functions
    ∧ c6x_ep ∈ collect_entrypoints [c6x_contract] c6x_src
    ∧ c6x_ep.name = c6x_fn.name := by
  refine ⟨by decide, by decide, by decide, ?_, rfl⟩
  exact mem_collect_entrypoints.mpr ⟨c6x_contract, by decide, c6x_fn, by decide, by decide⟩

/-- Claim C6 (amended): when the declaring file is known, the contract
file is itself known, and the two differ, the entrypoint tagger drops
the function. -/
theorem cross_file_suppression (c : ContractInfo) (m : List (String × String))
    (fi : FunctionInfo) (h1 : decl_file_of c fi ≠ "") (h2 : c.file ≠ "")
    (h3 : decl_file_of c fi ≠ c.file) :
    ep_step c m fi = none := by
  unfold ep_step
  split
  · rfl
  · dsimp only
    rw [if_pos ⟨h1, h2, h3⟩]

/-- Cross-file function for the C6 witness. -/
def c6w_fn : FunctionInfo :=
  { name := "ping", signature := "ping()", visibility := "public",
    mutability := "nonpayable", modifiers := [], line := 1,
    src_start := 1, src_len := 4, src_file := "b.sol" }

/-- Host contract of the C6 witness, with a known file of its own. -/
def c6w_contract : ContractInfo :=
  { name := "B", kind := "contract", file := "a.sol", functions := [c6w_fn],
    has_receive := false, has_fallback := false }

/-- Witness for C6 (amended): the drop at a concrete cross-file
function. -/
theorem cross_file_suppression_witness : ep_step c6w_contract [] c6w_fn = none :=
  cross_file_suppression c6w_contract [] c6w_fn (by decide) (by decide) (by decide)

/-- Claim C10: an emitted entrypoint record always reports the contract
file, an emitted sink record reports the declaring file (falling back to
the contract file), and so the two taggers report different files for a
function declared in a different known file. -/
theorem file_field_reporting (c : ContractInfo) (m : List (String × String))
    (fi : FunctionInfo) (ep : EntrypointInfo) (sk : SinkInfo)
    (hep : ep_step c m fi = some ep) (hsk : sink_step c m fi = some sk) :
    ep.file = c.file ∧ sk.file = decl_file_of c fi
    ∧ (fi.src_file ≠ "" → fi.src_file ≠ c.file → ep.file ≠ sk.file) := by
  obtain ⟨-, -, -, heq⟩ := ep_step_some hep
  obtain ⟨-, heq2⟩ := sink_step_some hsk
  subst heq heq2
  refine ⟨rfl, rfl, fun h1 h2 => ?_⟩
  show c.file ≠ decl_file_of c fi
  unfold decl_file_of
  rw [if_neg h1]
  exact fun hc => h2 hc.symm

/-- Cross-file function with an external call, for the C10 witness. -/
def w10_fn : FunctionInfo :=
  { name := "relay", signature := "relay()", visibility := "public",
    mutability := "nonpayable", modifiers := [], line := 1,
    src_start := 1, src_len := 100, src_file := "b.sol" }

/-- Host contract of the C10 witness (empty own file, so the entrypoint
tagger does not drop the cross-file function). -/
def w10_contract : ContractInfo :=
  { name := "W", kind := "contract", file := "", functions := [w10_fn],
    has_receive := false, has_fallback := false }

/-- Source map of the C10 witness. -/
def w10_src : List (String × String) := [("b.sol", "Qa.call(b);")]

/-- The entrypoint record the C10 witness setup produces. -/
def w10_ep : EntrypointInfo :=
  { contract := "W", contract_kind := "contract", file := "",
    signature := "relay()", name := "relay", visibility := "public",
    mutability := "nonpayable", modifiers := [], line := 1,
    tags := ["for-all", "calls-out"] }

/-- The sink record the C10 witness setup produces. -/
def w10_sk : SinkInfo :=
  { contract := "W", contract_kind := "contract", file := "b.sol",
    signature := "relay()", name := "relay", visibility := "public",
    mutability := "nonpayable", modifiers := [], line := 1,
    tags := ["calls-out"] }

/-- Witness for C10: the two file fields and their divergence at a
concrete inherited-style function. -/
theorem file_field_reporting_witness :
    w10_ep.file = w10_contract.file
    ∧ w10_sk.file = decl_file_of w10_contract w10_fn
    ∧ w10_ep.file ≠ w10_sk.file := by
  have h := file_field_reporting w10_contract w10_src w10_fn w10_ep w10_sk
    (by decide) (by decide)
  exact ⟨h.1, h.2.1, h.2.2 (by decide) (by decide)⟩

/-- First of two key-tied records for the C7 counterexample. -/
def c7a : FunctionInfo :=
  { name := "f", signature := "f(uint256 a)", visibility := "public",
    mutability := "", modifiers := [], line := 1 }

/-- Second key-tied record (same sort key, different record). -/
def c7b : FunctionInfo :=
  { name := "f", signature := "f(bool b)", visibility := "public",
    mutability := "", modifiers := [], line := 2 }

/-- Counterexample to claim C7 as stated: two distinct records with
identical sort keys; the stable sort keeps their input order, so the two
permutations of the input produce different outputs. -/
theorem sort_functions_order_dependent :
    [c7a, c7b].Perm [c7b, c7a]
    ∧ sort_key c7a = sort_key c7b
    ∧ sort_functions [c7a, c7b] ≠ sort_functions [c7b, c7a] := by
  refine ⟨List.Perm.swap c7b c7a [], by decide, ?_⟩
  unfold sort_functions
  rw [mergeSort_pair, mergeSort_pair]
  decide

/-- Claim C7 (amended): the final ordering is independent of the input
order whenever no two distinct functions of the list share a sort key. -/
theorem sort_functions_shuffle (l l' : List FunctionInfo) (hperm : l.Perm l')
    (hkeys : ∀ a ∈ l, ∀ b ∈ l, sort_key a = sort_key b → a = b) :
    sort_functions l = sort_functions l' := by
  apply pairwise_perm_eq fn_le
  · exact ((List.mergeSort_perm l fn_le).trans hperm).trans
      (List.mergeSort_perm l' fn_le).symm
  · exact List.sorted_mergeSort fn_le_trans fn_le_total l
  · exact List.sorted_mergeSort fn_le_trans fn_le_total l'
  · intro x hx y hy hxy hyx
    exact hkeys x (List.mem_mergeSort.mp hx) y (List.mem_mergeSort.mp hy)
      (fn_le_antisymm x y hxy hyx)

/-- Key-distinct record for the C7 witness. -/
def c7c : FunctionInfo :=
  { name := "alpha", signature := "alpha()", visibility := "public",
    mutability := "", modifiers := [], line := 1 }

/-- Second key-distinct record for the C7 witness. -/
def c7d : FunctionInfo :=
  { name := "beta", signature := "beta()", visibility := "external",
    mutability := "view", modifiers := [], line := 2 }

/-- Witness for C7 (amended): both orders of a key-distinct pair sort to
the same list. -/
theorem sort_functions_shuffle_witness :
    sort_functions [c7c, c7d] = sort_functions [c7d, c7c] :=
  sort_functions_shuffle [c7c, c7d] [c7d, c7c]
    (List.Perm.swap c7d c7c []) (by decide)

